import Mathlib

/-!
Verification of the `LM_LSTM_CRF` model (`model/lm_lstm_crf.py`).

Tensors are modelled shallowly as a shape together with a flat list of
scalar entries (`Tensor`); integer index tensors are `NTensor`.  The
external PyTorch modules the model owns (LSTMs, dropout, highway blocks,
multi-head-attention encoder layers) carry learned state and randomness
that live outside this repository, so they appear as function-valued
fields of the model; the torch operations the source calls directly
(embedding lookup, `gather`, `cat`, `view`, `permute`, `nn.Linear`) are
given concrete semantics.  Python exceptions (failed `view`, an
out-of-range `ModuleList` index, a missing dimension) are modelled as
`none` / `Except.error`.
-/

/-- A tensor: a shape and a flat row-major data list.  Entries are
integers: the only arithmetic the modelled layers perform on entries is
addition and multiplication (`nn.Linear`), and the structural claims
verified below do not depend on the scalar field; the real-valued
CRF/attention analysis further down uses `ℝ`. -/
structure Tensor where
  shape : List Nat
  data : List ℤ
deriving DecidableEq, Repr

/-- An integer tensor (torch `LongTensor`), used for indices. -/
structure NTensor where
  shape : List Nat
  data : List Nat
deriving DecidableEq, Repr

/-- Flat read of a 3-D tensor with trailing dims `d1, d2` at `[i, j, k]`. -/
def get3 (t : Tensor) (d1 d2 i j k : Nat) : ℤ :=
  t.data.getD (i * d1 * d2 + j * d2 + k) 0

/-- Flat read of a 4-D tensor with trailing dims `d1, d2, d3`. -/
def get4 (t : Tensor) (d1 d2 d3 i j k l : Nat) : ℤ :=
  t.data.getD (((i * d1 + j) * d2 + k) * d3 + l) 0

/-- `nn.Embedding` lookup: `table` is `(V, D)`, the result appends a
feature axis of width `D` to the index tensor's shape. -/
def embedLookup (table : Tensor) (idx : NTensor) : Tensor :=
  let D := table.shape.getD 1 0
  { shape := idx.shape ++ [D]
    data := idx.data.flatMap (fun i => (table.data.drop (i * D)).take D) }

/-- `position.unsqueeze(2).expand(W, B, H)` on a `(W, B)` index tensor. -/
def expandIdx (p : NTensor) (W B H : Nat) : NTensor :=
  { shape := [W, B, H]
    data := ((p.data.take (W * B)).flatMap (fun v => List.replicate H v)) }

/-- `torch.gather(t, 0, idx)` for 3-D `t` and `idx`:
`out[w,b,h] = t[idx[w,b,h], b, h]`. -/
def gather3 (t : Tensor) (idx : NTensor) : Tensor :=
  let B := t.shape.getD 1 0
  let H := t.shape.getD 2 0
  let W := idx.shape.getD 0 0
  let Bi := idx.shape.getD 1 0
  let Hi := idx.shape.getD 2 0
  { shape := idx.shape
    data := (List.range W).flatMap fun w =>
      (List.range Bi).flatMap fun b =>
        (List.range Hi).map fun h =>
          get3 t B H (idx.data.getD (w * Bi * Hi + b * Hi + h) 0) b h }

/-- `torch.cat((a, b), dim=2)` for 3-D tensors of shapes
`(S, B, H1)` and `(S, B, H2)`. -/
def catDim2 (a b : Tensor) : Tensor :=
  let S := a.shape.getD 0 0
  let B := a.shape.getD 1 0
  let H1 := a.shape.getD 2 0
  let H2 := b.shape.getD 2 0
  { shape := [S, B, H1 + H2]
    data := (List.range (S * B)).flatMap fun r =>
      ((a.data.drop (r * H1)).take H1) ++ ((b.data.drop (r * H2)).take H2) }

/-- `t.permute(1, 0, 2)` for a 3-D tensor. -/
def permute102 (t : Tensor) : Tensor :=
  let A := t.shape.getD 0 0
  let B := t.shape.getD 1 0
  let C := t.shape.getD 2 0
  { shape := [B, A, C]
    data := (List.range B).flatMap fun b =>
      (List.range A).flatMap fun a =>
        (List.range C).map fun c => get3 t B C a b c }

/-- `t.permute(1, 0, 2, 3)` for a 4-D tensor (identity on other ranks). -/
def permute1023 (t : Tensor) : Tensor :=
  match t.shape with
  | [a, b, c, d] =>
    { shape := [b, a, c, d]
      data := (List.range b).flatMap fun j =>
        (List.range a).flatMap fun i =>
          (List.range c).flatMap fun k =>
            (List.range d).map fun l => get4 t b c d i j k l }
  | _ => t

/-- `t.view(s)`: succeeds only when the element counts agree
(otherwise torch raises, modelled as `none`). -/
def viewT (t : Tensor) (s : List Nat) : Option Tensor :=
  if s.prod = t.data.length then some { shape := s, data := t.data } else none

/-- `t.view(-1, d)`: flatten to rows of width `d`. -/
def viewNeg1 (t : Tensor) (d : Nat) : Tensor :=
  { shape := [t.data.length / d, d], data := t.data }

/-- `p.permute(1, 0)` for a 2-D index tensor. -/
def transpose2 (p : NTensor) : NTensor :=
  let A := p.shape.getD 0 0
  let B := p.shape.getD 1 0
  { shape := [B, A]
    data := (List.range B).flatMap fun j =>
      (List.range A).map fun i => p.data.getD (i * B + j) 0 }

/-- Split a flat list into rows of width `n` (structural recursion on a
fuel bounded by the list length, so that it reduces definitionally). -/
def chunksFuel (n : Nat) : Nat → List ℤ → List (List ℤ)
  | _, [] => []
  | 0, _ :: _ => []
  | fuel + 1, a :: l =>
    if n = 0 then [] else (a :: l).take n :: chunksFuel n fuel ((a :: l).drop n)

/-- Split a flat list into rows of width `n`. -/
def chunks (n : Nat) (l : List ℤ) : List (List ℤ) :=
  chunksFuel n l.length l

/-- An `nn.Linear(inF, outF)` module: weight matrix and bias. -/
structure Linear where
  inF : Nat
  outF : Nat
  weight : List (List ℤ)
  bias : List ℤ
deriving DecidableEq, Repr

def mkLinear (a b : Nat) (w : List (List ℤ)) (bv : List ℤ) : Linear :=
  ⟨a, b, w, bv⟩

def dotProd (xs ys : List ℤ) : ℤ := (List.zipWith (· * ·) xs ys).sum

/-- Apply an `nn.Linear` along the last axis of a tensor. -/
def applyLinear (l : Linear) (t : Tensor) : Tensor :=
  let lastD := t.shape.getLastD 0
  { shape := t.shape.dropLast ++ [l.outF]
    data := (chunks lastD t.data).flatMap fun row =>
      (List.range l.outF).map fun o => l.bias.getD o 0 + dotProd (l.weight.getD o []) row }

/-- Apply an optional module, the identity when absent.  In the source an
absent highway module is never applied (it exists iff `if_highway`). -/
def applyOpt (o : Option (Tensor → Tensor)) (t : Tensor) : Tensor :=
  match o with
  | some f => f t
  | none => t

/-- An encoder layer of the multi-head self-attention stack
(`submodel.EncoderLayer`, learned state outside src/): it maps the
running encoder output plus the two masks to a new encoder output and
an attention map (the source discards the latter). -/
def EncLayer : Type := Tensor → NTensor → NTensor → Tensor × Tensor

/-- Modelled from the spec: `model/utils.py` (`get_attn_key_pad_mask`) is
not under src/.  Per the spec's "masked attention", it builds the
key-padding self-attention mask of shape `(B, len_q, len_k)`, marking the
positions whose *key* token is the padding symbol of the word dictionary. -/
def get_attn_key_pad_mask (seq_k seq_q : NTensor) (padIdx : Nat) : NTensor :=
  let B := seq_k.shape.getD 0 0
  let Lk := seq_k.shape.getD 1 0
  let Lq := seq_q.shape.getD 1 0
  { shape := [B, Lq, Lk]
    data := (List.range B).flatMap fun b =>
      (List.range Lq).flatMap fun _q =>
        (List.range Lk).map fun k =>
          if seq_k.data.getD (b * Lk + k) 0 = padIdx then 1 else 0 }

/-- Modelled from the spec: `model/utils.py` (`get_non_pad_mask`) is not
under src/.  It marks, per batch element and position, whether the token
differs from the padding symbol, as a `(B, L, 1)` mask. -/
def get_non_pad_mask (seq : NTensor) (padIdx : Nat) : NTensor :=
  { shape := [seq.shape.getD 0 0, seq.shape.getD 1 0, 1]
    data := seq.data.map (fun x => if x = padIdx then 0 else 1) }

/-- The `LM_LSTM_CRF` module's state.  Scalar hyper-parameters and the
`nn.Embedding` / `nn.Linear` weights are concrete; the owned sub-modules
whose learned state lives in PyTorch (LSTMs, dropout, highway blocks,
encoder layers) are function-valued fields.  `crflist` holds the
per-corpus CRF heads: `model/crf.py` is not under src/, and per the spec
a CRF head scores label sequences via pairwise transition potentials,
i.e. it produces `tagset_size * tagset_size` features per token; it is
modelled as a linear map to that many features (the `forward` below
views its output as `(batch, seq, tagset, tagset)`). -/
structure Model where
  char_dim : Nat
  char_hidden_dim : Nat
  char_size : Nat
  word_dim : Nat
  word_hidden_dim : Nat
  word_size : Nat
  if_highway : Bool
  word_level_attention : Bool
  char_embeds : Tensor
  forw_char_lstm : Tensor → Tensor × Tensor
  back_char_lstm : Tensor → Tensor × Tensor
  char_rnn_layers : Nat
  word_embeds : Tensor
  word_lstm : Tensor → Tensor × Tensor
  word_rnn_layers : Nat
  dropout : Tensor → Tensor
  tagset_size : Nat
  crflist : List Linear
  forw2char : Option (Tensor → Tensor)
  back2char : Option (Tensor → Tensor)
  forw2word : Option (Tensor → Tensor)
  back2word : Option (Tensor → Tensor)
  fb2char : Option (Tensor → Tensor)
  char_pre_train_out : Linear
  word_pre_train_out : Linear
  batch_size : Nat
  word_seq_length : Nat
  position_enc : Tensor
  layer_stack : List EncLayer
  fc : Linear

/-- The stochastic / externally-created material `__init__` consumes:
freshly initialised torch sub-modules and weight tables.  `posTable`
stands for `utils.get_sinusoid_encoding_table(n_position, embedding_dim,
padding_idx=0)` (`model/utils.py` is not under src/), the frozen
sinusoidal position-encoding table. -/
structure InitParams where
  charEmbW : Tensor
  wordEmbW : Tensor
  posTable : Tensor
  fLSTM : Tensor → Tensor × Tensor
  bLSTM : Tensor → Tensor × Tensor
  wLSTM : Tensor → Tensor × Tensor
  drop : Tensor → Tensor
  crfW : Nat → List (List ℤ)
  crfB : Nat → List ℤ
  hwForwChar : Tensor → Tensor
  hwBackChar : Tensor → Tensor
  hwForwWord : Tensor → Tensor
  hwBackWord : Tensor → Tensor
  hwFbChar : Tensor → Tensor
  cptW : List (List ℤ)
  cptB : List ℤ
  wptW : List (List ℤ)
  wptB : List ℤ
  encL : Nat → EncLayer
  fcW : List (List ℤ)
  fcB : List ℤ

namespace LM_LSTM_CRF

/-- `LM_LSTM_CRF.__init__` (lines 39-101).  `dropout_ratio`, the LSTM
layer counts, `n_head`, `d_k`, `d_v`, `len_max_seq` and `highway_layers`
parameterise the torch sub-modules supplied through `p`; `large_CRF`
selects `crf.CRF_L` over `crf.CRF_S` — both heads (code not under src/)
produce `tagset_size * tagset_size` transition potentials per token and
are modelled alike. -/
def init (tagset_size char_size char_dim char_hidden_dim char_rnn_layers
    embedding_dim word_hidden_dim word_rnn_layers vocab_size : Nat)
    (file_num : Nat) (n_layers : Nat) (_large_CRF : Bool) (if_highway : Bool)
    (in_doc_words : Nat) (word_level_attention : Bool) (p : InitParams) : Model :=
  { char_dim := char_dim
    char_hidden_dim := char_hidden_dim
    char_size := char_size
    word_dim := embedding_dim
    word_hidden_dim := word_hidden_dim
    word_size := vocab_size
    if_highway := if_highway
    word_level_attention := word_level_attention
    char_embeds := p.charEmbW
    forw_char_lstm := p.fLSTM
    back_char_lstm := p.bLSTM
    char_rnn_layers := char_rnn_layers
    word_embeds := p.wordEmbW
    word_lstm := p.wLSTM
    word_rnn_layers := word_rnn_layers
    dropout := p.drop
    tagset_size := tagset_size
    crflist := (List.range file_num).map fun i =>
      mkLinear word_hidden_dim (tagset_size * tagset_size) (p.crfW i) (p.crfB i)
    forw2char := if if_highway then some p.hwForwChar else none
    back2char := if if_highway then some p.hwBackChar else none
    forw2word := if if_highway then some p.hwForwWord else none
    back2word := if if_highway then some p.hwBackWord else none
    fb2char := if if_highway then some p.hwFbChar else none
    char_pre_train_out := mkLinear char_hidden_dim char_size p.cptW p.cptB
    word_pre_train_out := mkLinear char_hidden_dim in_doc_words p.wptW p.wptB
    batch_size := 1
    word_seq_length := 1
    position_enc := p.posTable
    layer_stack := (List.range n_layers).map p.encL
    fc := mkLinear (embedding_dim * 2 + char_hidden_dim * 2) word_hidden_dim p.fcW p.fcB }

/-- `set_batch_size` (lines 103-107). -/
def set_batch_size (m : Model) (bsize : Nat) : Model :=
  { m with batch_size := bsize }

/-- `set_batch_seq_size` (lines 109-115): reads `sentence.size()[0]` and
`sentence.size()[1]`; a tensor of rank below 2 raises (modelled `none`). -/
def set_batch_seq_size (m : Model) (sentence : NTensor) : Option Model :=
  match sentence.shape with
  | d0 :: d1 :: _ => some { m with word_seq_length := d0, batch_size := d1 }
  | _ => none

/-- The errors `load_pretrained_word_embedding` can raise. -/
inductive LoadErr where
  | indexError
  | assertionError
deriving DecidableEq, Repr

/-- `load_pretrained_word_embedding` (lines 123-131): asserts
`pre_word_embeddings.size()[1] == self.word_dim` (a rank-1 tensor makes
the subscript itself fail first), then replaces `word_embeds.weight`. -/
def load_pretrained_word_embedding (m : Model) (pre : Tensor) :
    Except LoadErr Model :=
  match pre.shape.get? 1 with
  | none => .error .indexError
  | some d1 =>
    if d1 = m.word_dim then .ok { m with word_embeds := pre }
    else .error .assertionError

/-- `rand_init` (lines 133-159) replaces the learned state of the listed
sub-modules with freshly initialised state; the fresh state (randomness
and the in-place `utils.init_*` / `crf.rand_init` routines, which are
not under src/) is supplied through `f` and `crfInit`. -/
def rand_init (m : Model) (init_char_embedding init_word_embedding : Bool)
    (f : InitParams) (crfInit : Linear → Linear) : Model :=
  { m with
    char_embeds := if init_char_embedding then f.charEmbW else m.char_embeds
    word_embeds := if init_word_embedding then f.wordEmbW else m.word_embeds
    forw2char := if m.if_highway then some f.hwForwChar else m.forw2char
    back2char := if m.if_highway then some f.hwBackChar else m.back2char
    forw2word := if m.if_highway then some f.hwForwWord else m.forw2word
    back2word := if m.if_highway then some f.hwBackWord else m.back2word
    fb2char := if m.if_highway then some f.hwFbChar else m.fb2char
    forw_char_lstm := f.fLSTM
    back_char_lstm := f.bLSTM
    word_lstm := f.wLSTM
    char_pre_train_out := mkLinear m.char_hidden_dim m.char_size f.cptW f.cptB
    word_pre_train_out := mkLinear m.char_hidden_dim m.word_pre_train_out.outF f.wptW f.wptB
    fc := mkLinear m.fc.inF m.fc.outF f.fcW f.fcB
    crflist := m.crflist.map crfInit }

/-- Lines 174-181 of `word_pre_train_forward`: char embedding, dropout,
the forward char LSTM, gathering its states at the word-boundary
positions, dropout, and the flattening `view(-1, char_hidden_dim)`;
this is the `d_lstm_out` value of the source. -/
def lmForwFeatures (m : Model) (sentence position : NTensor) : Tensor :=
  let embeds := embedLookup m.char_embeds sentence
  let d_embeds := m.dropout embeds
  let lstm_out := (m.forw_char_lstm d_embeds).1
  let tmpsize := position.shape
  let position2 := expandIdx position (tmpsize.getD 0 0) (tmpsize.getD 1 0) m.char_hidden_dim
  let select_lstm_out := gather3 lstm_out position2
  viewNeg1 (m.dropout select_lstm_out) m.char_hidden_dim

/-- Lines 204-211 of `word_pre_train_backward`: the same pipeline over
the backward char LSTM. -/
def lmBackFeatures (m : Model) (sentence position : NTensor) : Tensor :=
  let embeds := embedLookup m.char_embeds sentence
  let d_embeds := m.dropout embeds
  let lstm_out := (m.back_char_lstm d_embeds).1
  let tmpsize := position.shape
  let position2 := expandIdx position (tmpsize.getD 0 0) (tmpsize.getD 1 0) m.char_hidden_dim
  let select_lstm_out := gather3 lstm_out position2
  viewNeg1 (m.dropout select_lstm_out) m.char_hidden_dim

/-- `word_pre_train_forward` (lines 161-190).  The `hidden` argument of
the source is shadowed before use (line 176) and therefore omitted. -/
def word_pre_train_forward (m : Model) (sentence position : NTensor) :
    Tensor × Tensor :=
  let hidden := (m.forw_char_lstm (m.dropout (embedLookup m.char_embeds sentence))).2
  let d_lstm_out := lmForwFeatures m sentence position
  let d_char_out :=
    if m.if_highway then m.dropout (applyOpt m.forw2word d_lstm_out)
    else d_lstm_out
  (applyLinear m.word_pre_train_out d_char_out, hidden)

/-- `word_pre_train_backward` (lines 192-220); as above, the unused
`hidden` argument is omitted. -/
def word_pre_train_backward (m : Model) (sentence position : NTensor) :
    Tensor × Tensor :=
  let hidden := (m.back_char_lstm (m.dropout (embedLookup m.char_embeds sentence))).2
  let d_lstm_out := lmBackFeatures m sentence position
  let d_char_out :=
    if m.if_highway then m.dropout (applyOpt m.back2word d_lstm_out)
    else d_lstm_out
  (applyLinear m.word_pre_train_out d_char_out, hidden)

/-- Lines 241-261 of `forward`: embeddings, dropout, both char LSTMs,
gathering at the word-boundary positions and concatenation — the
`fb_lstm_out` value of the source. -/
def fbLstmOut (m : Model) (forw_sentence forw_position back_sentence
    back_position : NTensor) : Tensor :=
  let forw_emb := embedLookup m.char_embeds forw_sentence
  let back_emb := embedLookup m.char_embeds back_sentence
  let d_f_emb := m.dropout forw_emb
  let d_b_emb := m.dropout back_emb
  let forw_lstm_out := (m.forw_char_lstm d_f_emb).1
  let back_lstm_out := (m.back_char_lstm d_b_emb).1
  let forw_position2 := expandIdx forw_position m.word_seq_length m.batch_size m.char_hidden_dim
  let select_forw_lstm_out := gather3 forw_lstm_out forw_position2
  let back_position2 := expandIdx back_position m.word_seq_length m.batch_size m.char_hidden_dim
  let select_back_lstm_out := gather3 back_lstm_out back_position2
  m.dropout (catDim2 select_forw_lstm_out select_back_lstm_out)

/-- The char-level stage of `forward` (lines 241-266): `fbLstmOut`
followed by the optional `fb2char` highway block (lines 262-266). -/
def charStage (m : Model) (forw_sentence forw_position back_sentence
    back_position : NTensor) : Tensor :=
  let fb_lstm_out := fbLstmOut m forw_sentence forw_position back_sentence back_position
  if m.if_highway then m.dropout (applyOpt m.fb2char fb_lstm_out)
  else fb_lstm_out

/-- Run the attention stack (the `for enc_layer in self.layer_stack`
loop, lines 289-294): each layer is applied to the running output with
the two masks, the returned attention map is discarded. -/
def runLayerStack (layers : List EncLayer) (x : Tensor)
    (non_pad_mask slf_attn_mask : NTensor) : Tensor :=
  layers.foldl (fun acc layer => (layer acc non_pad_mask slf_attn_mask).1) x

/-- `runLayerStack` instrumented to also record, per layer call, the pair
of masks that call received. -/
def runLayerStackTrace (layers : List EncLayer) (x : Tensor)
    (non_pad_mask slf_attn_mask : NTensor) : Tensor × List (NTensor × NTensor) :=
  layers.foldl
    (fun acc layer =>
      ((layer acc.1 non_pad_mask slf_attn_mask).1, acc.2 ++ [(non_pad_mask, slf_attn_mask)]))
    (x, [])

/-- The word-level stage of `forward` (lines 268-313) up to the input of
the CRF head: the attention branch (position encodings, masks, attention
stack, `fc`) when `word_level_attention`, the bidirectional word LSTM
branch otherwise.  `word_dict` enters only through the padding index the
mask helpers use. -/
def encoderOut (m : Model) (forw_sentence forw_position back_sentence
    back_position word_seq word_pos : NTensor) (word_dict : Nat) : Tensor :=
  let d_char_out := charStage m forw_sentence forw_position back_sentence back_position
  let word_emb := embedLookup m.word_embeds word_seq
  let d_word_emb := m.dropout word_emb
  if m.word_level_attention then
    let word_pos_enc := embedLookup m.position_enc word_pos
    let enc_output := permute102 (catDim2 (catDim2 d_word_emb d_char_out) word_pos_enc)
    let slf_attn_mask := get_attn_key_pad_mask (transpose2 word_seq) (transpose2 word_seq) word_dict
    let non_pad_mask := get_non_pad_mask (transpose2 word_seq) word_dict
    let enc_output2 := runLayerStack m.layer_stack enc_output non_pad_mask slf_attn_mask
    applyLinear m.fc enc_output2
  else
    let word_input := catDim2 d_word_emb d_char_out
    let lstm_out := (m.word_lstm word_input).1
    m.dropout lstm_out

/-- The tail of `forward` (lines 302/313 and 315-317): select the CRF
head for the corpus index, apply it, view as
`(batch, seq, tagset, tagset)` and permute to `(seq, batch, ...)`. -/
def crfTail (m : Model) (enc : Tensor) (file_no : Nat) : Option Tensor :=
  match m.crflist[file_no]? with
  | none => none
  | some head =>
    match viewT (applyLinear head enc)
        [m.batch_size, m.word_seq_length, m.tagset_size, m.tagset_size] with
    | none => none
    | some v => some (permute1023 v)

/-- `forward` (lines 222-318): updates the batch bookkeeping from
`forw_position` first (line 239), then runs the encoders and the
selected CRF head.  Exceptions after the bookkeeping update leave the
updated model behind, as the in-place mutation does. -/
def forward (m : Model) (forw_sentence forw_position back_sentence
    back_position word_seq word_pos : NTensor) (word_dict : Nat)
    (file_no : Nat) : Model × Option Tensor :=
  match set_batch_seq_size m forw_position with
  | none => (m, none)
  | some m1 =>
    (m1, crfTail m1
      (encoderOut m1 forw_sentence forw_position back_sentence back_position
        word_seq word_pos word_dict) file_no)

end LM_LSTM_CRF

/-!
Modelled from the spec: the CRF layer (`model/crf.py`) and the attention
internals (`model/submodel.py`, `model/utils.py`) are not under src/.
The spec describes them as "the CRF layer's forward/Viterbi/
partition-function computation and the multi-head self-attention encoder
... dynamic-programming recursions, numerically-stable log-domain
arithmetic, masked attention".  The definitions below model exactly
that: the numerically-stable log-sum-exp, the log-domain forward
(partition-function) recursion and the Viterbi max-score recursion over
the `(tagset, tagset)` transition potentials the model emits, and
softmax attention under a key mask.  Real-number arithmetic idealises
the floating-point arithmetic of the source.
-/

/-- Maximum of a list of reals (used to shift the exponentials in the
numerically-stable log-sum-exp); junk value `0` on the empty list. -/
noncomputable def maxL : List ℝ → ℝ
  | [] => 0
  | [a] => a
  | a :: b :: l => max a (maxL (b :: l))

/-- Modelled from the spec: numerically-stable log-sum-exp — subtract the
maximum, exponentiate, sum, take the log, and add the maximum back. -/
noncomputable def logSumExpL (l : List ℝ) : ℝ :=
  maxL l + Real.log ((l.map (fun x => Real.exp (x - maxL l))).sum)

/-- The scores feeding one step of the CRF recursions: predecessor value
plus transition potential into state `j`, over the `K` states. -/
noncomputable def colScores (K : Nat) (α : Nat → ℝ) (M : Nat → Nat → ℝ)
    (j : Nat) : List ℝ :=
  (List.range K).map fun i => α i + M i j

/-- Modelled from the spec: the log-domain forward (alpha) recursion of
the CRF over a list of per-position transition-potential matrices. -/
noncomputable def crfForwardRec (K : Nat) (α : Nat → ℝ) :
    List (Nat → Nat → ℝ) → Nat → ℝ
  | [], j => α j
  | M :: Ms, j => crfForwardRec K (fun j2 => logSumExpL (colScores K α M j2)) Ms j

/-- Modelled from the spec: the Viterbi (max-score) recursion of the CRF. -/
noncomputable def crfViterbiRec (K : Nat) (δ : Nat → ℝ) :
    List (Nat → Nat → ℝ) → Nat → ℝ
  | [], j => δ j
  | M :: Ms, j => crfViterbiRec K (fun j2 => maxL (colScores K δ M j2)) Ms j

/-- All label sequences of length `n` over `K` states. -/
def tuples (K : Nat) : Nat → List (List Nat)
  | 0 => [[]]
  | n + 1 => (List.range K).flatMap fun y => (tuples K n).map fun ys => y :: ys

/-- Transition score accumulated along a label sequence starting after
state `prev`. -/
noncomputable def chainScore (prev : Nat) : List (Nat → Nat → ℝ) → List Nat → ℝ
  | [], _ => 0
  | _ :: _, [] => 0
  | M :: Ms, y :: ys => M prev y + chainScore y Ms ys

/-- Total score of a label sequence `y0 :: ys`: initial potential of `y0`
plus the chained transition potentials. -/
noncomputable def seqScore (α : Nat → ℝ) (Ms : List (Nat → Nat → ℝ)) :
    List Nat → ℝ
  | [] => 0
  | y0 :: ys => α y0 + chainScore y0 Ms ys

/-- The CRF partition function, written as its defining sum over every
label sequence (no dynamic programming). -/
noncomputable def crfPartitionSpec (K : Nat) (α : Nat → ℝ)
    (Ms : List (Nat → Nat → ℝ)) : ℝ :=
  ((tuples K (Ms.length + 1)).map fun p => Real.exp (seqScore α Ms p)).sum

/-- The best (Viterbi) sequence score, written as the maximum over every
label sequence (no dynamic programming). -/
noncomputable def crfViterbiSpec (K : Nat) (δ : Nat → ℝ)
    (Ms : List (Nat → Nat → ℝ)) : ℝ :=
  maxL ((tuples K (Ms.length + 1)).map fun p => seqScore δ Ms p)

/-- The log-partition function as the CRF computes it: run the log-domain
forward recursion, then log-sum-exp the final state values. -/
noncomputable def crfLogPartitionDP (K : Nat) (α : Nat → ℝ)
    (Ms : List (Nat → Nat → ℝ)) : ℝ :=
  logSumExpL ((List.range K).map (crfForwardRec K α Ms))

/-- The Viterbi score as the CRF computes it: run the max-score recursion,
then take the best final state value. -/
noncomputable def crfViterbiDP (K : Nat) (δ : Nat → ℝ)
    (Ms : List (Nat → Nat → ℝ)) : ℝ :=
  maxL ((List.range K).map (crfViterbiRec K δ Ms))

/-- One attention position: raw score, key mask flag, value. -/
structure AttnEntry where
  score : ℝ
  masked : Bool
  value : ℝ

/-- Modelled from the spec: masked softmax attention — a masked key
contributes `exp` weight `0` (the `-inf` fill before the softmax), and
the weights are normalised over the whole row. -/
noncomputable def maskedAttnOut (entries : List AttnEntry) : ℝ :=
  let w := entries.map fun e => if e.masked then 0 else Real.exp e.score
  let Z := w.sum
  ((entries.map fun e =>
    ((if e.masked then 0 else Real.exp e.score) / Z) * e.value)).sum

/-- Plain (unmasked) softmax attention over a list of score/value pairs. -/
noncomputable def softmaxAttnOut (entries : List AttnEntry) : ℝ :=
  let Z := (entries.map fun e => Real.exp e.score).sum
  ((entries.map fun e => (Real.exp e.score / Z) * e.value)).sum

/-!
Concrete fixtures: a minimal instantiation (all dimensions 1, identity
sub-modules) used to evaluate the definitions on closed inputs.
-/

def idx11 : NTensor := ⟨[1, 1], [0]⟩

def testParams : InitParams :=
  { charEmbW := ⟨[1, 1], [0]⟩
    wordEmbW := ⟨[1, 1], [0]⟩
    posTable := ⟨[2, 1], [0, 0]⟩
    fLSTM := fun t => (t, t)
    bLSTM := fun t => (t, t)
    wLSTM := fun t => (t, t)
    drop := fun t => t
    crfW := fun _ => [[1]]
    crfB := fun _ => [0]
    hwForwChar := fun t => t
    hwBackChar := fun t => t
    hwForwWord := fun t => t
    hwBackWord := fun t => t
    hwFbChar := fun t => t
    cptW := [[1]]
    cptB := [0]
    wptW := [[1]]
    wptB := [0]
    encL := fun _ => fun x _ _ => (x, x)
    fcW := [[1]]
    fcB := [0] }

def testModel : Model :=
  LM_LSTM_CRF.init 1 1 1 1 1 1 1 1 1 1 1 true false 1 false testParams

def testModelAttn : Model :=
  LM_LSTM_CRF.init 1 1 1 1 1 1 1 1 1 1 1 true false 1 true testParams

def testModelHW : Model :=
  LM_LSTM_CRF.init 1 1 1 1 1 1 1 1 1 1 1 true true 1 false testParams

/-! Helper lemmas. -/

theorem sum_map_exp_pos (a : ℝ) (l : List ℝ) :
    0 < ((a :: l).map Real.exp).sum := by
  have h1 : 0 ≤ (l.map Real.exp).sum := by
    apply List.sum_nonneg
    intro x hx
    simp only [List.mem_map] at hx
    obtain ⟨y, _, rfl⟩ := hx
    exact (Real.exp_pos y).le
  have h2 := Real.exp_pos a
  simp only [List.map_cons, List.sum_cons]
  linarith

theorem logSumExpL_cons (a : ℝ) (l : List ℝ) :
    logSumExpL (a :: l) = Real.log (((a :: l).map Real.exp).sum) := by
  have hpos := sum_map_exp_pos a l
  have hstep : ((a :: l).map fun x => Real.exp (x - maxL (a :: l))).sum
      = (((a :: l).map Real.exp).sum) * Real.exp (-(maxL (a :: l))) := by
    have hfun : (fun x => Real.exp (x - maxL (a :: l)))
        = fun x => Real.exp x * Real.exp (-(maxL (a :: l))) := by
      funext x
      rw [Real.exp_sub, Real.exp_neg, div_eq_mul_inv]
    rw [hfun, List.sum_map_mul_right]
  unfold logSumExpL
  rw [hstep, Real.log_mul (ne_of_gt hpos) (ne_of_gt (Real.exp_pos _)), Real.log_exp]
  ring

theorem sum_map_flatMap {α β : Type} (l : List α) (f : α → List β) (g : β → ℝ) :
    ((l.flatMap f).map g).sum = (l.map fun a => ((f a).map g).sum).sum := by
  induction l with
  | nil => simp
  | cons a t ih => simp [List.flatMap_cons, ih]

theorem sum_map_add {β : Type} (l : List β) (f g : β → ℝ) :
    (l.map fun b => f b + g b).sum = (l.map f).sum + (l.map g).sum := by
  induction l with
  | nil => simp
  | cons a t ih =>
    simp only [List.map_cons, List.sum_cons, ih]
    ring

theorem sum_map_swap {α β : Type} (l1 : List α) (l2 : List β) (g : α → β → ℝ) :
    (l1.map fun a => (l2.map fun b => g a b).sum).sum
      = (l2.map fun b => (l1.map fun a => g a b).sum).sum := by
  induction l1 with
  | nil => simp
  | cons a t ih =>
    simp only [List.map_cons, List.sum_cons, ih, ← sum_map_add]

theorem sum_over_tuples_succ (K n : Nat) (g : List Nat → ℝ) :
    ((tuples K (n + 1)).map g).sum
      = ((List.range K).map fun y => ((tuples K n).map fun ys => g (y :: ys)).sum).sum := by
  show (((List.range K).flatMap fun y => (tuples K n).map fun ys => y :: ys).map g).sum = _
  rw [sum_map_flatMap]
  simp only [List.map_map]
  rfl

theorem colScores_cons_form (k : Nat) (α : Nat → ℝ) (M : Nat → Nat → ℝ) (j : Nat) :
    colScores (k + 1) α M j
      = (α 0 + M 0 j) :: (((List.range k).map Nat.succ).map fun i => α i + M i j) := by
  unfold colScores
  rw [List.range_succ_eq_map]
  simp [List.map_map]

theorem exp_logSumExpL_colScores (k : Nat) (α : Nat → ℝ) (M : Nat → Nat → ℝ) (j : Nat) :
    Real.exp (logSumExpL (colScores (k + 1) α M j))
      = ((List.range (k + 1)).map fun i => Real.exp (α i + M i j)).sum := by
  rw [colScores_cons_form, logSumExpL_cons, Real.exp_log (sum_map_exp_pos _ _)]
  rw [← colScores_cons_form]
  unfold colScores
  rw [List.map_map]
  rfl

theorem tuples_succ_mem_cons (K n : Nat) (p : List Nat) (hp : p ∈ tuples K (n + 1)) :
    ∃ y ys, p = y :: ys := by
  simp only [tuples, List.mem_flatMap, List.mem_map] at hp
  obtain ⟨y, _, ys, _, heq⟩ := hp
  exact ⟨y, ys, heq.symm⟩

theorem exp_seqScore_cons_step (k : Nat) (α : Nat → ℝ) (M : Nat → Nat → ℝ)
    (Ms : List (Nat → Nat → ℝ)) (y1 : Nat) (ys : List Nat) :
    Real.exp (seqScore (fun j => logSumExpL (colScores (k + 1) α M j)) Ms (y1 :: ys))
      = ((List.range (k + 1)).map fun y0 =>
          Real.exp (seqScore α (M :: Ms) (y0 :: y1 :: ys))).sum := by
  simp only [seqScore, chainScore]
  rw [Real.exp_add, exp_logSumExpL_colScores, ← List.sum_map_mul_right]
  apply congrArg
  apply List.map_congr_left
  intro i _
  rw [← Real.exp_add, add_assoc]

theorem crf_forward_sum (k : Nat) (Ms : List (Nat → Nat → ℝ)) :
    ∀ α : Nat → ℝ,
      ((List.range (k + 1)).map fun j => Real.exp (crfForwardRec (k + 1) α Ms j)).sum
        = ((tuples (k + 1) (Ms.length + 1)).map fun p => Real.exp (seqScore α Ms p)).sum := by
  induction Ms with
  | nil =>
    intro α
    rw [List.length_nil, sum_over_tuples_succ]
    simp [tuples, crfForwardRec, seqScore, chainScore]
  | cons M Ms ih =>
    intro α
    calc ((List.range (k + 1)).map fun j =>
            Real.exp (crfForwardRec (k + 1) α (M :: Ms) j)).sum
        = ((List.range (k + 1)).map fun j => Real.exp (crfForwardRec (k + 1)
            (fun j2 => logSumExpL (colScores (k + 1) α M j2)) Ms j)).sum := by
          simp only [crfForwardRec]
      _ = ((tuples (k + 1) (Ms.length + 1)).map fun p =>
            Real.exp (seqScore (fun j2 => logSumExpL (colScores (k + 1) α M j2)) Ms p)).sum :=
          ih _
      _ = ((tuples (k + 1) (Ms.length + 1)).map fun p =>
            ((List.range (k + 1)).map fun y0 =>
              Real.exp (seqScore α (M :: Ms) (y0 :: p))).sum).sum := by
          apply congrArg
          apply List.map_congr_left
          intro p hp
          obtain ⟨y1, ys, rfl⟩ := tuples_succ_mem_cons _ _ _ hp
          exact exp_seqScore_cons_step k α M Ms y1 ys
      _ = ((List.range (k + 1)).map fun y0 =>
            ((tuples (k + 1) (Ms.length + 1)).map fun p =>
              Real.exp (seqScore α (M :: Ms) (y0 :: p))).sum).sum :=
          sum_map_swap _ _ _
      _ = ((tuples (k + 1) ((M :: Ms).length + 1)).map fun p =>
            Real.exp (seqScore α (M :: Ms) p)).sum := by
          rw [List.length_cons, sum_over_tuples_succ]

theorem maxL_cons (a : ℝ) (l : List ℝ) (h : l ≠ []) :
    maxL (a :: l) = max a (maxL l) := by
  cases l with
  | nil => exact absurd rfl h
  | cons b t => rfl

theorem map_ne_nil {α β : Type} (f : α → β) (l : List α) (h : l ≠ []) :
    l.map f ≠ [] := by
  cases l with
  | nil => exact absurd rfl h
  | cons a t => simp

theorem flatMap_ne_nil {α β : Type} (l : List α) (f : α → List β)
    (hl : l ≠ []) (hf : ∀ a ∈ l, f a ≠ []) : l.flatMap f ≠ [] := by
  cases l with
  | nil => exact absurd rfl hl
  | cons a t =>
    simp only [List.flatMap_cons, ne_eq, List.append_eq_nil]
    intro hcon
    exact hf a (by simp) hcon.1

theorem maxL_append (l1 l2 : List ℝ) (h1 : l1 ≠ []) (h2 : l2 ≠ []) :
    maxL (l1 ++ l2) = max (maxL l1) (maxL l2) := by
  induction l1 with
  | nil => exact absurd rfl h1
  | cons a t ih =>
    cases t with
    | nil =>
      simp only [List.singleton_append]
      rw [maxL_cons a l2 h2]
      rfl
    | cons b t2 =>
      have hne : (b :: t2) ++ l2 ≠ [] := by simp
      rw [List.cons_append, maxL_cons a ((b :: t2) ++ l2) hne,
        ih (by simp), maxL_cons a (b :: t2) (by simp), max_assoc]

theorem maxL_singleton (a : ℝ) : maxL [a] = a := rfl

theorem maxL_map_max {α : Type} (l : List α) (F G : α → ℝ) (h : l ≠ []) :
    maxL (l.map fun b => max (F b) (G b)) = max (maxL (l.map F)) (maxL (l.map G)) := by
  induction l with
  | nil => exact absurd rfl h
  | cons a t ih =>
    cases t with
    | nil => rfl
    | cons b t2 =>
      have hne : (b :: t2) ≠ [] := by simp
      have hFG : List.map (fun x => max (F x) (G x)) (b :: t2) ≠ [] := by simp
      have hF : List.map F (b :: t2) ≠ [] := by simp
      have hG : List.map G (b :: t2) ≠ [] := by simp
      rw [List.map_cons _ a (b :: t2), List.map_cons _ a (b :: t2),
        List.map_cons _ a (b :: t2), maxL_cons _ _ hFG, maxL_cons _ _ hF,
        maxL_cons _ _ hG, ih hne, max_max_max_comm]

theorem maxL_map_add_right {α : Type} (l : List α) (f : α → ℝ) (c : ℝ) (h : l ≠ []) :
    maxL (l.map f) + c = maxL (l.map fun b => f b + c) := by
  induction l with
  | nil => exact absurd rfl h
  | cons a t ih =>
    cases t with
    | nil => rfl
    | cons b t2 =>
      have hne : (b :: t2) ≠ [] := by simp
      have hF : List.map f (b :: t2) ≠ [] := by simp
      have hFc : List.map (fun x => f x + c) (b :: t2) ≠ [] := by simp
      rw [List.map_cons _ a (b :: t2), List.map_cons _ a (b :: t2),
        maxL_cons _ _ hF, maxL_cons _ _ hFc, ← ih hne, max_add_add_right]

theorem maxL_map_flatMap {α β : Type} (l : List α) (f : α → List β) (g : β → ℝ)
    (hl : l ≠ []) (hf : ∀ a ∈ l, f a ≠ []) :
    maxL ((l.flatMap f).map g) = maxL (l.map fun a => maxL ((f a).map g)) := by
  induction l with
  | nil => exact absurd rfl hl
  | cons a t ih =>
    cases t with
    | nil =>
      simp only [List.flatMap_cons, List.flatMap_nil, List.append_nil,
        List.map_cons, List.map_nil, maxL_singleton]
    | cons b t2 =>
      have hne : (b :: t2) ≠ [] := by simp
      have hfa : f a ≠ [] := hf a (by simp)
      have hrest : (b :: t2).flatMap f ≠ [] :=
        flatMap_ne_nil _ _ hne (fun x hx => hf x (by simp [hx]))
      rw [List.flatMap_cons, List.map_append,
        maxL_append _ _ (map_ne_nil _ _ hfa) (map_ne_nil _ _ hrest),
        ih hne (fun x hx => hf x (by simp [hx])), List.map_cons _ a (b :: t2),
        maxL_cons _ _ (map_ne_nil _ _ hne)]

theorem maxL_swap {α β : Type} (l1 : List α) (l2 : List β) (g : α → β → ℝ)
    (h1 : l1 ≠ []) (h2 : l2 ≠ []) :
    maxL (l1.map fun a => maxL (l2.map fun b => g a b))
      = maxL (l2.map fun b => maxL (l1.map fun a => g a b)) := by
  induction l1 with
  | nil => exact absurd rfl h1
  | cons a t ih =>
    cases t with
    | nil =>
      simp only [List.map_cons, List.map_nil, maxL_singleton]
    | cons c t2 =>
      have hne : (c :: t2) ≠ [] := by simp
      rw [List.map_cons _ a (c :: t2),
        maxL_cons _ _ (map_ne_nil _ _ hne), ih hne]
      have hpoint : (l2.map fun b => maxL ((a :: c :: t2).map fun a2 => g a2 b))
          = l2.map fun b => max (g a b) (maxL ((c :: t2).map fun a2 => g a2 b)) := by
        apply List.map_congr_left
        intro b _
        rw [List.map_cons _ a (c :: t2), maxL_cons _ _ (map_ne_nil _ _ hne)]
      rw [hpoint, maxL_map_max l2 _ _ h2]

theorem tuples_ne_nil (k : Nat) : ∀ n : Nat, tuples (k + 1) n ≠ [] := by
  intro n
  induction n with
  | zero => simp [tuples]
  | succ n ih =>
    show (List.range (k + 1)).flatMap (fun y => (tuples (k + 1) n).map fun ys => y :: ys) ≠ []
    apply flatMap_ne_nil
    · simp
    · intro a _
      exact map_ne_nil _ _ ih

theorem max_over_tuples_succ (k n : Nat) (g : List Nat → ℝ) :
    maxL ((tuples (k + 1) (n + 1)).map g)
      = maxL ((List.range (k + 1)).map fun y =>
          maxL ((tuples (k + 1) n).map fun ys => g (y :: ys))) := by
  show maxL (((List.range (k + 1)).flatMap fun y =>
      (tuples (k + 1) n).map fun ys => y :: ys).map g) = _
  rw [maxL_map_flatMap _ _ _ (by simp) (fun a _ => map_ne_nil _ _ (tuples_ne_nil k n))]
  apply congrArg
  apply List.map_congr_left
  intro y _
  rw [List.map_map]
  rfl

theorem seqScore_viterbi_cons_step (k : Nat) (δ : Nat → ℝ) (M : Nat → Nat → ℝ)
    (Ms : List (Nat → Nat → ℝ)) (y1 : Nat) (ys : List Nat) :
    seqScore (fun j => maxL (colScores (k + 1) δ M j)) Ms (y1 :: ys)
      = maxL ((List.range (k + 1)).map fun y0 =>
          seqScore δ (M :: Ms) (y0 :: y1 :: ys)) := by
  simp only [seqScore, chainScore]
  unfold colScores
  rw [maxL_map_add_right _ _ _ (by simp)]
  apply congrArg
  apply List.map_congr_left
  intro i _
  rw [add_assoc]

theorem crf_viterbi_max (k : Nat) (Ms : List (Nat → Nat → ℝ)) :
    ∀ δ : Nat → ℝ,
      maxL ((List.range (k + 1)).map (crfViterbiRec (k + 1) δ Ms))
        = maxL ((tuples (k + 1) (Ms.length + 1)).map fun p => seqScore δ Ms p) := by
  induction Ms with
  | nil =>
    intro δ
    rw [List.length_nil, max_over_tuples_succ]
    apply congrArg
    apply List.map_congr_left
    intro y _
    simp [tuples, crfViterbiRec, seqScore, chainScore, maxL_singleton]
  | cons M Ms ih =>
    intro δ
    calc maxL ((List.range (k + 1)).map (crfViterbiRec (k + 1) δ (M :: Ms)))
        = maxL ((List.range (k + 1)).map
            (crfViterbiRec (k + 1) (fun j2 => maxL (colScores (k + 1) δ M j2)) Ms)) := by
          simp only [crfViterbiRec]
      _ = maxL ((tuples (k + 1) (Ms.length + 1)).map fun p =>
            seqScore (fun j2 => maxL (colScores (k + 1) δ M j2)) Ms p) := ih _
      _ = maxL ((tuples (k + 1) (Ms.length + 1)).map fun p =>
            maxL ((List.range (k + 1)).map fun y0 =>
              seqScore δ (M :: Ms) (y0 :: p))) := by
          apply congrArg
          apply List.map_congr_left
          intro p hp
          obtain ⟨y1, ys, rfl⟩ := tuples_succ_mem_cons _ _ _ hp
          exact seqScore_viterbi_cons_step k δ M Ms y1 ys
      _ = maxL ((List.range (k + 1)).map fun y0 =>
            maxL ((tuples (k + 1) (Ms.length + 1)).map fun p =>
              seqScore δ (M :: Ms) (y0 :: p))) :=
          maxL_swap _ _ _ (tuples_ne_nil k _) (by simp)
      _ = maxL ((tuples (k + 1) ((M :: Ms).length + 1)).map fun p =>
            seqScore δ (M :: Ms) p) := by
          rw [List.length_cons, max_over_tuples_succ]

theorem masked_weight_sum (l : List AttnEntry) :
    (l.map fun e => if e.masked then (0 : ℝ) else Real.exp e.score).sum
      = ((l.filter fun e => !e.masked).map fun e => Real.exp e.score).sum := by
  induction l with
  | nil => simp
  | cons e t ih =>
    by_cases h : e.masked <;>
      simp [List.filter_cons, h, ih]

theorem masked_contrib_sum (l : List AttnEntry) (Z : ℝ) :
    (l.map fun e =>
      ((if e.masked then (0 : ℝ) else Real.exp e.score) / Z) * e.value).sum
      = ((l.filter fun e => !e.masked).map fun e =>
          (Real.exp e.score / Z) * e.value).sum := by
  induction l with
  | nil => simp
  | cons e t ih =>
    by_cases h : e.masked <;>
      simp [List.filter_cons, h, ih]

/-- C4: The CRF layer computes its forward score, Viterbi decoding and
partition function by dynamic-programming recursions using
numerically-stable log-domain arithmetic, and the multi-head
self-attention encoder applies masked attention.  Formally (over the
spec-modelled definitions, since `model/crf.py` and the attention
internals are not under src/): (i) the max-shifted (numerically stable)
log-sum-exp equals the plain log of the sum of exponentials; (ii) the
log-domain forward dynamic-programming recursion computes the log of the
partition function, i.e. of the sum of `exp`-scores over all label
sequences; (iii) the Viterbi dynamic-programming recursion computes the
best sequence score; (iv) masked softmax attention gives masked keys
zero weight: it coincides with plain softmax attention over the
unmasked entries. -/
theorem crf_dp_log_domain_and_masked_attention :
    (∀ (a : ℝ) (l : List ℝ),
      logSumExpL (a :: l) = Real.log (((a :: l).map Real.exp).sum))
    ∧ (∀ (k : Nat) (α : Nat → ℝ) (Ms : List (Nat → Nat → ℝ)),
      crfLogPartitionDP (k + 1) α Ms = Real.log (crfPartitionSpec (k + 1) α Ms))
    ∧ (∀ (k : Nat) (δ : Nat → ℝ) (Ms : List (Nat → Nat → ℝ)),
      crfViterbiDP (k + 1) δ Ms = crfViterbiSpec (k + 1) δ Ms)
    ∧ (∀ entries : List AttnEntry,
      maskedAttnOut entries = softmaxAttnOut (entries.filter fun e => !e.masked)) := by
  refine ⟨logSumExpL_cons, ?_, ?_, ?_⟩
  · intro k α Ms
    unfold crfLogPartitionDP crfPartitionSpec
    rw [List.range_succ_eq_map, List.map_cons, logSumExpL_cons, ← List.map_cons,
      ← List.range_succ_eq_map, List.map_map]
    rw [show ((List.range (k + 1)).map
        (Real.exp ∘ crfForwardRec (k + 1) α Ms))
        = (List.range (k + 1)).map fun j => Real.exp (crfForwardRec (k + 1) α Ms j) from rfl]
    rw [crf_forward_sum k Ms α]
  · intro k δ Ms
    unfold crfViterbiDP crfViterbiSpec
    exact crf_viterbi_max k Ms δ
  · intro entries
    show (entries.map fun e =>
        ((if e.masked then (0 : ℝ) else Real.exp e.score) /
          ((entries.map fun e => if e.masked then (0 : ℝ) else Real.exp e.score).sum)) * e.value).sum
      = (((entries.filter fun e => !e.masked).map fun e =>
          (Real.exp e.score /
            (((entries.filter fun e => !e.masked).map fun e => Real.exp e.score).sum)) * e.value).sum)
    rw [masked_weight_sum, masked_contrib_sum]

/-- C1: The constructor creates exactly `file_num` CRF output modules
(`crflist` has length `file_num`), and `forward` with corpus index
`file_no` applies `crflist[file_no]` to the encoder output, while the
char-level and word-level encoder computation (`encoderOut`) is the same
— it does not depend on `file_no`; only the CRF head varies with the
corpus index. -/
theorem per_corpus_crf_heads_shared_encoders :
    (∀ (ts cs cd chd crl ed whd wrl vs fn nl : Nat) (lc hw : Bool)
        (idw : Nat) (wla : Bool) (p : InitParams),
      (LM_LSTM_CRF.init ts cs cd chd crl ed whd wrl vs fn nl lc hw idw wla p).crflist.length
        = fn)
    ∧ (∀ (m m1 : Model) (fs fp bs bp ws wp : NTensor) (wd file_no : Nat)
        (head : Linear),
      LM_LSTM_CRF.set_batch_seq_size m fp = some m1 →
      m1.crflist[file_no]? = some head →
      (LM_LSTM_CRF.forward m fs fp bs bp ws wp wd file_no).2
        = (viewT (applyLinear head (LM_LSTM_CRF.encoderOut m1 fs fp bs bp ws wp wd))
            [m1.batch_size, m1.word_seq_length, m1.tagset_size, m1.tagset_size]).map
            permute1023) := by
  constructor
  · intro ts cs cd chd crl ed whd wrl vs fn nl lc hw idw wla p
    simp [LM_LSTM_CRF.init]
  · intro m m1 fs fp bs bp ws wp wd file_no head h1 h2
    simp only [LM_LSTM_CRF.forward, h1, LM_LSTM_CRF.crfTail, h2]
    cases hv : viewT (applyLinear head (LM_LSTM_CRF.encoderOut m1 fs fp bs bp ws wp wd))
        [m1.batch_size, m1.word_seq_length, m1.tagset_size, m1.tagset_size] <;>
      simp [hv]

theorem per_corpus_crf_heads_shared_encoders_witness :
    LM_LSTM_CRF.set_batch_seq_size testModel idx11 = some testModel
    ∧ testModel.crflist[0]? = some (mkLinear 1 1 [[1]] [0])
    ∧ testModel.crflist.length = 1
    ∧ (LM_LSTM_CRF.forward testModel idx11 idx11 idx11 idx11 idx11 idx11 0 0).2
        = (viewT (applyLinear (mkLinear 1 1 [[1]] [0])
            (LM_LSTM_CRF.encoderOut testModel idx11 idx11 idx11 idx11 idx11 idx11 0))
            [testModel.batch_size, testModel.word_seq_length,
              testModel.tagset_size, testModel.tagset_size]).map permute1023 := by
  refine ⟨rfl, rfl, ?_, ?_⟩
  · exact per_corpus_crf_heads_shared_encoders.1 1 1 1 1 1 1 1 1 1 1 1 true false 1 false
      testParams
  · exact per_corpus_crf_heads_shared_encoders.2 testModel testModel idx11 idx11 idx11
      idx11 idx11 idx11 0 0 (mkLinear 1 1 [[1]] [0]) rfl rfl

theorem viewT_some (t : Tensor) (s : List Nat) (v : Tensor) (h : viewT t s = some v) :
    v.shape = s ∧ v.data = t.data := by
  rw [viewT] at h
  by_cases hc : s.prod = t.data.length
  · rw [if_pos hc] at h
    simp only [Option.some.injEq] at h
    rw [← h]
    exact ⟨rfl, rfl⟩
  · rw [if_neg hc] at h
    exact absurd h (by simp)

theorem permute1023_shape (v : Tensor) (a b c d : Nat) (hv : v.shape = [a, b, c, d]) :
    (permute1023 v).shape = [b, a, c, d] := by
  rcases v with ⟨s, dat⟩
  simp only at hv
  subst hv
  rfl

theorem set_batch_seq_size_some (m m1 : Model) (fp : NTensor)
    (h : LM_LSTM_CRF.set_batch_seq_size m fp = some m1) :
    m1.word_seq_length = fp.shape.getD 0 0 ∧ m1.batch_size = fp.shape.getD 1 0
      ∧ m1.tagset_size = m.tagset_size := by
  rw [LM_LSTM_CRF.set_batch_seq_size] at h
  rcases hfp : fp.shape with _ | ⟨d0, _ | ⟨d1, rest⟩⟩ <;> rw [hfp] at h
  · exact absurd h (by simp)
  · exact absurd h (by simp)
  · simp only [Option.some.injEq] at h
    rw [← h]
    exact ⟨rfl, rfl, rfl⟩

theorem crfTail_some (m : Model) (enc : Tensor) (fno : Nat) (t : Tensor)
    (h : LM_LSTM_CRF.crfTail m enc fno = some t) :
    ∃ head v, m.crflist[fno]? = some head
      ∧ viewT (applyLinear head enc)
          [m.batch_size, m.word_seq_length, m.tagset_size, m.tagset_size] = some v
      ∧ t = permute1023 v := by
  rw [LM_LSTM_CRF.crfTail] at h
  split at h
  · exact absurd h (by simp)
  · rename_i head h2
    split at h
    · exact absurd h (by simp)
    · rename_i v h3
      simp only [Option.some.injEq] at h
      exact ⟨head, v, h2, h3, h.symm⟩

theorem forward_some (m : Model) (fs fp bs bp ws wp : NTensor) (wd fno : Nat) (t : Tensor)
    (h : (LM_LSTM_CRF.forward m fs fp bs bp ws wp wd fno).2 = some t) :
    ∃ m1, LM_LSTM_CRF.set_batch_seq_size m fp = some m1
      ∧ LM_LSTM_CRF.crfTail m1 (LM_LSTM_CRF.encoderOut m1 fs fp bs bp ws wp wd) fno
          = some t := by
  rw [LM_LSTM_CRF.forward] at h
  rcases h1 : LM_LSTM_CRF.set_batch_seq_size m fp with _ | m1 <;> rw [h1] at h
  · exact absurd h (by simp)
  · exact ⟨m1, rfl, h⟩

/-- C2: Whenever `forward` returns a tensor, that tensor has shape
`(word_seq_len, batch_size, tagset_size, tagset_size)` — the first two
dimensions being those of `forw_position` — and it is obtained by
viewing the CRF head output as
`(batch_size, word_seq_length, tagset_size, tagset_size)` and permuting
the first two axes. -/
theorem forward_output_shape_view_permute :
    ∀ (m : Model) (fs fp bs bp ws wp : NTensor) (wd file_no : Nat) (t : Tensor),
      (LM_LSTM_CRF.forward m fs fp bs bp ws wp wd file_no).2 = some t →
      ∃ (m1 : Model) (head : Linear) (v : Tensor),
        LM_LSTM_CRF.set_batch_seq_size m fp = some m1
        ∧ m1.crflist[file_no]? = some head
        ∧ viewT (applyLinear head (LM_LSTM_CRF.encoderOut m1 fs fp bs bp ws wp wd))
            [m1.batch_size, m1.word_seq_length, m1.tagset_size, m1.tagset_size] = some v
        ∧ t = permute1023 v
        ∧ t.shape = [fp.shape.getD 0 0, fp.shape.getD 1 0, m.tagset_size, m.tagset_size] := by
  intro m fs fp bs bp ws wp wd file_no t hret
  obtain ⟨m1, h1, htail⟩ := forward_some m fs fp bs bp ws wp wd file_no t hret
  obtain ⟨head, v, h2, h3, h4⟩ := crfTail_some m1 _ file_no t htail
  obtain ⟨hw, hb, hts⟩ := set_batch_seq_size_some m m1 fp h1
  obtain ⟨hvs, _⟩ := viewT_some _ _ _ h3
  refine ⟨m1, head, v, h1, h2, h3, h4, ?_⟩
  rw [h4, permute1023_shape v m1.batch_size m1.word_seq_length m1.tagset_size m1.tagset_size hvs,
    hw, hb, hts]

theorem forward_output_shape_view_permute_witness :
    (LM_LSTM_CRF.forward testModel idx11 idx11 idx11 idx11 idx11 idx11 0 0).2
      = some (Tensor.mk [1, 1, 1, 1] [0])
    ∧ ∃ (m1 : Model) (head : Linear) (v : Tensor),
        LM_LSTM_CRF.set_batch_seq_size testModel idx11 = some m1
        ∧ m1.crflist[0]? = some head
        ∧ viewT (applyLinear head (LM_LSTM_CRF.encoderOut m1 idx11 idx11 idx11 idx11 idx11 idx11 0))
            [m1.batch_size, m1.word_seq_length, m1.tagset_size, m1.tagset_size] = some v
        ∧ Tensor.mk [1, 1, 1, 1] [0] = permute1023 v
        ∧ (Tensor.mk [1, 1, 1, 1] [0]).shape
            = [idx11.shape.getD 0 0, idx11.shape.getD 1 0,
                testModel.tagset_size, testModel.tagset_size] :=
  ⟨by decide,
    forward_output_shape_view_permute testModel idx11 idx11 idx11 idx11 idx11 idx11 0 0
      (Tensor.mk [1, 1, 1, 1] [0]) (by decide)⟩

/-- C3: When `word_level_attention` is true the word-level representation
is the concatenation of word embeddings, char features and position
encodings passed through the attention stack and `fc` (and the word-level
LSTM is not used: changing it cannot change the output); when it is
false the word-level representation comes from the bidirectional word
LSTM (and the attention stack, the position-encoding table and `fc` are
not used: changing them cannot change the output). -/
theorem word_level_attention_branching :
    (∀ (m : Model) (W : Tensor → Tensor × Tensor) (fs fp bs bp ws wp : NTensor)
        (wd fno : Nat),
      m.word_level_attention = true →
      (LM_LSTM_CRF.forward { m with word_lstm := W } fs fp bs bp ws wp wd fno).2
        = (LM_LSTM_CRF.forward m fs fp bs bp ws wp wd fno).2)
    ∧ (∀ (m : Model) (L : List EncLayer) (P : Tensor) (F : Linear)
        (fs fp bs bp ws wp : NTensor) (wd fno : Nat),
      m.word_level_attention = false →
      (LM_LSTM_CRF.forward { m with layer_stack := L, position_enc := P, fc := F }
          fs fp bs bp ws wp wd fno).2
        = (LM_LSTM_CRF.forward m fs fp bs bp ws wp wd fno).2)
    ∧ (∀ (m : Model) (fs fp bs bp ws wp : NTensor) (wd : Nat),
      m.word_level_attention = true →
      LM_LSTM_CRF.encoderOut m fs fp bs bp ws wp wd
        = applyLinear m.fc (LM_LSTM_CRF.runLayerStack m.layer_stack
            (permute102 (catDim2 (catDim2 (m.dropout (embedLookup m.word_embeds ws))
              (LM_LSTM_CRF.charStage m fs fp bs bp)) (embedLookup m.position_enc wp)))
            (get_non_pad_mask (transpose2 ws) wd)
            (get_attn_key_pad_mask (transpose2 ws) (transpose2 ws) wd)))
    ∧ (∀ (m : Model) (fs fp bs bp ws wp : NTensor) (wd : Nat),
      m.word_level_attention = false →
      LM_LSTM_CRF.encoderOut m fs fp bs bp ws wp wd
        = m.dropout ((m.word_lstm (catDim2 (m.dropout (embedLookup m.word_embeds ws))
            (LM_LSTM_CRF.charStage m fs fp bs bp))).1)) := by
  refine ⟨?_, ?_, ?_, ?_⟩
  · intro m W fs fp bs bp ws wp wd fno h
    rcases hfp : fp.shape with _ | ⟨d0, _ | ⟨d1, rest⟩⟩ <;>
      simp only [LM_LSTM_CRF.forward, LM_LSTM_CRF.set_batch_seq_size, hfp, LM_LSTM_CRF.crfTail,
        LM_LSTM_CRF.encoderOut, LM_LSTM_CRF.charStage, LM_LSTM_CRF.fbLstmOut, h, if_true]
  · intro m L P F fs fp bs bp ws wp wd fno h
    rcases hfp : fp.shape with _ | ⟨d0, _ | ⟨d1, rest⟩⟩ <;>
      simp only [LM_LSTM_CRF.forward, LM_LSTM_CRF.set_batch_seq_size, hfp, LM_LSTM_CRF.crfTail,
        LM_LSTM_CRF.encoderOut, LM_LSTM_CRF.charStage, LM_LSTM_CRF.fbLstmOut, h,
        Bool.false_eq_true, if_false]
  · intro m fs fp bs bp ws wp wd h
    rw [LM_LSTM_CRF.encoderOut]
    simp only [h, if_true]
  · intro m fs fp bs bp ws wp wd h
    rw [LM_LSTM_CRF.encoderOut]
    simp only [h, Bool.false_eq_true, if_false]

theorem word_level_attention_branching_witness :
    (testModelAttn.word_level_attention = true
      ∧ (LM_LSTM_CRF.forward { testModelAttn with word_lstm := fun t => (t, t) }
          idx11 idx11 idx11 idx11 idx11 idx11 0 0).2
        = (LM_LSTM_CRF.forward testModelAttn idx11 idx11 idx11 idx11 idx11 idx11 0 0).2)
    ∧ (testModel.word_level_attention = false
      ∧ (LM_LSTM_CRF.forward { testModel with layer_stack := [],
                                              position_enc := ⟨[1, 1], [5]⟩,
                                              fc := mkLinear 1 1 [[2]] [3] }
          idx11 idx11 idx11 idx11 idx11 idx11 0 0).2
        = (LM_LSTM_CRF.forward testModel idx11 idx11 idx11 idx11 idx11 idx11 0 0).2)
    ∧ LM_LSTM_CRF.encoderOut testModel idx11 idx11 idx11 idx11 idx11 idx11 0
        = testModel.dropout ((testModel.word_lstm (catDim2
            (testModel.dropout (embedLookup testModel.word_embeds idx11))
            (LM_LSTM_CRF.charStage testModel idx11 idx11 idx11 idx11))).1)
    ∧ LM_LSTM_CRF.encoderOut testModelAttn idx11 idx11 idx11 idx11 idx11 idx11 0
        = applyLinear testModelAttn.fc (LM_LSTM_CRF.runLayerStack testModelAttn.layer_stack
            (permute102 (catDim2 (catDim2
              (testModelAttn.dropout (embedLookup testModelAttn.word_embeds idx11))
              (LM_LSTM_CRF.charStage testModelAttn idx11 idx11 idx11 idx11))
              (embedLookup testModelAttn.position_enc idx11)))
            (get_non_pad_mask (transpose2 idx11) 0)
            (get_attn_key_pad_mask (transpose2 idx11) (transpose2 idx11) 0)) := by
  refine ⟨⟨rfl, ?_⟩, ⟨rfl, ?_⟩, ?_, ?_⟩
  · exact word_level_attention_branching.1 testModelAttn (fun t => (t, t))
      idx11 idx11 idx11 idx11 idx11 idx11 0 0 rfl
  · exact word_level_attention_branching.2.1 testModel [] ⟨[1, 1], [5]⟩
      (mkLinear 1 1 [[2]] [3]) idx11 idx11 idx11 idx11 idx11 idx11 0 0 rfl
  · exact word_level_attention_branching.2.2.2 testModel
      idx11 idx11 idx11 idx11 idx11 idx11 0 rfl
  · exact word_level_attention_branching.2.2.1 testModelAttn
      idx11 idx11 idx11 idx11 idx11 idx11 0 rfl

theorem runLayerStackTrace_go (layers : List EncLayer) (npm sam : NTensor) :
    ∀ (x : Tensor) (acc : List (NTensor × NTensor)),
      layers.foldl
          (fun a layer => ((layer a.1 npm sam).1, a.2 ++ [(npm, sam)])) (x, acc)
        = (LM_LSTM_CRF.runLayerStack layers x npm sam,
            acc ++ List.replicate layers.length (npm, sam)) := by
  induction layers with
  | nil =>
    intro x acc
    simp [LM_LSTM_CRF.runLayerStack]
  | cons l t ih =>
    intro x acc
    simp only [List.foldl_cons]
    rw [ih]
    refine congrArg _ ?_
    rw [List.length_cons, List.append_assoc, List.singleton_append,
      ← List.replicate_succ]

/-- C5: In the attention branch, `forward` computes the key-padding
self-attention mask and the non-pad mask from `word_seq` and the word
dictionary before the attention stack, and every encoder layer of
`layer_stack` receives exactly those two masks: the instrumented stack
run records the same pair of masks once per layer, and the word-level
representation is the (traced) stack run on those masks followed by
`fc`. -/
theorem attention_masks_computed_once_and_shared :
    (∀ (layers : List EncLayer) (x : Tensor) (npm sam : NTensor),
      LM_LSTM_CRF.runLayerStackTrace layers x npm sam
        = (LM_LSTM_CRF.runLayerStack layers x npm sam,
            List.replicate layers.length (npm, sam)))
    ∧ (∀ (m : Model) (fs fp bs bp ws wp : NTensor) (wd : Nat),
      m.word_level_attention = true →
      LM_LSTM_CRF.encoderOut m fs fp bs bp ws wp wd
        = applyLinear m.fc
            (LM_LSTM_CRF.runLayerStackTrace m.layer_stack
              (permute102 (catDim2 (catDim2 (m.dropout (embedLookup m.word_embeds ws))
                (LM_LSTM_CRF.charStage m fs fp bs bp)) (embedLookup m.position_enc wp)))
              (get_non_pad_mask (transpose2 ws) wd)
              (get_attn_key_pad_mask (transpose2 ws) (transpose2 ws) wd)).1) := by
  constructor
  · intro layers x npm sam
    rw [LM_LSTM_CRF.runLayerStackTrace, runLayerStackTrace_go]
    simp
  · intro m fs fp bs bp ws wp wd h
    rw [LM_LSTM_CRF.encoderOut]
    simp only [h, if_true, LM_LSTM_CRF.runLayerStackTrace, runLayerStackTrace_go]

theorem attention_masks_computed_once_and_shared_witness :
    LM_LSTM_CRF.runLayerStackTrace testModelAttn.layer_stack ⟨[1, 1, 1], [0]⟩
        (get_non_pad_mask (transpose2 idx11) 0)
        (get_attn_key_pad_mask (transpose2 idx11) (transpose2 idx11) 0)
      = (LM_LSTM_CRF.runLayerStack testModelAttn.layer_stack ⟨[1, 1, 1], [0]⟩
          (get_non_pad_mask (transpose2 idx11) 0)
          (get_attn_key_pad_mask (transpose2 idx11) (transpose2 idx11) 0),
          List.replicate testModelAttn.layer_stack.length
            (get_non_pad_mask (transpose2 idx11) 0,
              get_attn_key_pad_mask (transpose2 idx11) (transpose2 idx11) 0))
    ∧ LM_LSTM_CRF.encoderOut testModelAttn idx11 idx11 idx11 idx11 idx11 idx11 0
        = applyLinear testModelAttn.fc
            (LM_LSTM_CRF.runLayerStackTrace testModelAttn.layer_stack
              (permute102 (catDim2 (catDim2
                (testModelAttn.dropout (embedLookup testModelAttn.word_embeds idx11))
                (LM_LSTM_CRF.charStage testModelAttn idx11 idx11 idx11 idx11))
                (embedLookup testModelAttn.position_enc idx11)))
              (get_non_pad_mask (transpose2 idx11) 0)
              (get_attn_key_pad_mask (transpose2 idx11) (transpose2 idx11) 0)).1 :=
  ⟨attention_masks_computed_once_and_shared.1 testModelAttn.layer_stack ⟨[1, 1, 1], [0]⟩
      (get_non_pad_mask (transpose2 idx11) 0)
      (get_attn_key_pad_mask (transpose2 idx11) (transpose2 idx11) 0),
    attention_masks_computed_once_and_shared.2 testModelAttn
      idx11 idx11 idx11 idx11 idx11 idx11 0 rfl⟩

/-- C6: The highway modules `forw2char`, `back2char`, `forw2word`,
`back2word`, `fb2char` are created iff `if_highway`; in `forward` the
concatenated char-LSTM features pass through the `fb2char` highway block
plus an extra dropout iff `if_highway` (otherwise they reach the word
stage with only the dropout of `fb_lstm_out`); and the language-model
scorers apply `forw2word` / `back2word` (plus dropout) iff `if_highway`. -/
theorem highway_modules_iff_flag :
    (∀ (ts cs cd chd crl ed whd wrl vs fn nl : Nat) (lc hw : Bool)
        (idw : Nat) (wla : Bool) (p : InitParams),
      (LM_LSTM_CRF.init ts cs cd chd crl ed whd wrl vs fn nl lc hw idw wla p).forw2char.isSome = hw
      ∧ (LM_LSTM_CRF.init ts cs cd chd crl ed whd wrl vs fn nl lc hw idw wla p).back2char.isSome = hw
      ∧ (LM_LSTM_CRF.init ts cs cd chd crl ed whd wrl vs fn nl lc hw idw wla p).forw2word.isSome = hw
      ∧ (LM_LSTM_CRF.init ts cs cd chd crl ed whd wrl vs fn nl lc hw idw wla p).back2word.isSome = hw
      ∧ (LM_LSTM_CRF.init ts cs cd chd crl ed whd wrl vs fn nl lc hw idw wla p).fb2char.isSome = hw)
    ∧ (∀ (m : Model) (fs fp bs bp : NTensor),
      (m.if_highway = true →
        LM_LSTM_CRF.charStage m fs fp bs bp
          = m.dropout (applyOpt m.fb2char (LM_LSTM_CRF.fbLstmOut m fs fp bs bp)))
      ∧ (m.if_highway = false →
        LM_LSTM_CRF.charStage m fs fp bs bp = LM_LSTM_CRF.fbLstmOut m fs fp bs bp))
    ∧ (∀ (m : Model) (s pos : NTensor),
      (m.if_highway = true →
        (LM_LSTM_CRF.word_pre_train_forward m s pos).1
          = applyLinear m.word_pre_train_out
              (m.dropout (applyOpt m.forw2word (LM_LSTM_CRF.lmForwFeatures m s pos)))
        ∧ (LM_LSTM_CRF.word_pre_train_backward m s pos).1
          = applyLinear m.word_pre_train_out
              (m.dropout (applyOpt m.back2word (LM_LSTM_CRF.lmBackFeatures m s pos))))
      ∧ (m.if_highway = false →
        (LM_LSTM_CRF.word_pre_train_forward m s pos).1
          = applyLinear m.word_pre_train_out (LM_LSTM_CRF.lmForwFeatures m s pos)
        ∧ (LM_LSTM_CRF.word_pre_train_backward m s pos).1
          = applyLinear m.word_pre_train_out (LM_LSTM_CRF.lmBackFeatures m s pos))) := by
  refine ⟨?_, ?_, ?_⟩
  · intro ts cs cd chd crl ed whd wrl vs fn nl lc hw idw wla p
    cases hw <;> simp [LM_LSTM_CRF.init]
  · intro m fs fp bs bp
    constructor
    · intro h
      rw [LM_LSTM_CRF.charStage]
      simp only [h, if_true]
    · intro h
      rw [LM_LSTM_CRF.charStage]
      simp only [h, Bool.false_eq_true, if_false]
  · intro m s pos
    constructor
    · intro h
      constructor
      · rw [LM_LSTM_CRF.word_pre_train_forward]
        simp only [h, if_true]
      · rw [LM_LSTM_CRF.word_pre_train_backward]
        simp only [h, if_true]
    · intro h
      constructor
      · rw [LM_LSTM_CRF.word_pre_train_forward]
        simp only [h, Bool.false_eq_true, if_false]
      · rw [LM_LSTM_CRF.word_pre_train_backward]
        simp only [h, Bool.false_eq_true, if_false]

theorem highway_modules_iff_flag_witness :
    (testModelHW.forw2char.isSome = true ∧ testModelHW.fb2char.isSome = true
      ∧ testModel.fb2char.isSome = false)
    ∧ (LM_LSTM_CRF.charStage testModelHW idx11 idx11 idx11 idx11
        = testModelHW.dropout (applyOpt testModelHW.fb2char
            (LM_LSTM_CRF.fbLstmOut testModelHW idx11 idx11 idx11 idx11)))
    ∧ (LM_LSTM_CRF.charStage testModel idx11 idx11 idx11 idx11
        = LM_LSTM_CRF.fbLstmOut testModel idx11 idx11 idx11 idx11)
    ∧ ((LM_LSTM_CRF.word_pre_train_forward testModelHW idx11 idx11).1
        = applyLinear testModelHW.word_pre_train_out
            (testModelHW.dropout (applyOpt testModelHW.forw2word
              (LM_LSTM_CRF.lmForwFeatures testModelHW idx11 idx11))))
    ∧ ((LM_LSTM_CRF.word_pre_train_backward testModel idx11 idx11).1
        = applyLinear testModel.word_pre_train_out
            (LM_LSTM_CRF.lmBackFeatures testModel idx11 idx11)) := by
  refine ⟨⟨?_, ?_, ?_⟩, ?_, ?_, ?_, ?_⟩
  · exact (highway_modules_iff_flag.1 1 1 1 1 1 1 1 1 1 1 1 true true 1 false testParams).1
  · exact (highway_modules_iff_flag.1 1 1 1 1 1 1 1 1 1 1 1 true true 1 false
      testParams).2.2.2.2
  · exact (highway_modules_iff_flag.1 1 1 1 1 1 1 1 1 1 1 1 true false 1 false
      testParams).2.2.2.2
  · exact (highway_modules_iff_flag.2.1 testModelHW idx11 idx11 idx11 idx11).1 rfl
  · exact (highway_modules_iff_flag.2.1 testModel idx11 idx11 idx11 idx11).2 rfl
  · exact ((highway_modules_iff_flag.2.2 testModelHW idx11 idx11).1 rfl).1
  · exact ((highway_modules_iff_flag.2.2 testModel idx11 idx11).2 rfl).2

theorem getLast?_append_singleton {α : Type} (l : List α) (a : α) :
    (l ++ [a]).getLast? = some a := by
  rw [List.getLast?_append_cons l a []]
  rfl

/-- C7: The forward and backward language-model scorers run the forward
and backward char LSTMs respectively over the shared char embedding
table, gather LSTM states at the word-boundary positions, share the
single output projection `word_pre_train_out`, return a score tensor of
width `in_doc_words` (the projection's output width, which the
constructor sets to `in_doc_words`), and return the LSTM hidden state as
the second component.  Sharing is expressed by dependence: each scorer's
result depends only on the shared fields (`char_embeds`, `dropout`,
`word_pre_train_out`, `char_hidden_dim`, `if_highway`) plus its own
LSTM and highway block. -/
theorem language_model_scorers_structure :
    (∀ (m : Model) (s pos : NTensor),
      ((LM_LSTM_CRF.word_pre_train_forward m s pos).1).shape.getLast?
          = some m.word_pre_train_out.outF
      ∧ ((LM_LSTM_CRF.word_pre_train_backward m s pos).1).shape.getLast?
          = some m.word_pre_train_out.outF)
    ∧ (∀ (ts cs cd chd crl ed whd wrl vs fn nl : Nat) (lc hw : Bool)
        (idw : Nat) (wla : Bool) (p : InitParams),
      (LM_LSTM_CRF.init ts cs cd chd crl ed whd wrl vs fn nl lc hw idw wla p).word_pre_train_out.outF
        = idw)
    ∧ (∀ (m m2 : Model),
      m.char_embeds = m2.char_embeds → m.dropout = m2.dropout →
      m.forw_char_lstm = m2.forw_char_lstm → m.char_hidden_dim = m2.char_hidden_dim →
      m.if_highway = m2.if_highway → m.forw2word = m2.forw2word →
      m.word_pre_train_out = m2.word_pre_train_out →
      ∀ (s pos : NTensor),
        LM_LSTM_CRF.word_pre_train_forward m s pos
          = LM_LSTM_CRF.word_pre_train_forward m2 s pos)
    ∧ (∀ (m m2 : Model),
      m.char_embeds = m2.char_embeds → m.dropout = m2.dropout →
      m.back_char_lstm = m2.back_char_lstm → m.char_hidden_dim = m2.char_hidden_dim →
      m.if_highway = m2.if_highway → m.back2word = m2.back2word →
      m.word_pre_train_out = m2.word_pre_train_out →
      ∀ (s pos : NTensor),
        LM_LSTM_CRF.word_pre_train_backward m s pos
          = LM_LSTM_CRF.word_pre_train_backward m2 s pos)
    ∧ (∀ (m : Model) (s pos : NTensor),
      (LM_LSTM_CRF.word_pre_train_forward m s pos).2
          = (m.forw_char_lstm (m.dropout (embedLookup m.char_embeds s))).2
      ∧ (LM_LSTM_CRF.word_pre_train_backward m s pos).2
          = (m.back_char_lstm (m.dropout (embedLookup m.char_embeds s))).2) := by
  refine ⟨?_, ?_, ?_, ?_, ?_⟩
  · intro m s pos
    constructor
    · rw [LM_LSTM_CRF.word_pre_train_forward]
      simp [applyLinear, getLast?_append_singleton]
    · rw [LM_LSTM_CRF.word_pre_train_backward]
      simp [applyLinear, getLast?_append_singleton]
  · intro ts cs cd chd crl ed whd wrl vs fn nl lc hw idw wla p
    rfl
  · intro m m2 h1 h2 h3 h4 h5 h6 h7 s pos
    simp only [LM_LSTM_CRF.word_pre_train_forward, LM_LSTM_CRF.lmForwFeatures,
      h1, h2, h3, h4, h5, h6, h7]
  · intro m m2 h1 h2 h3 h4 h5 h6 h7 s pos
    simp only [LM_LSTM_CRF.word_pre_train_backward, LM_LSTM_CRF.lmBackFeatures,
      h1, h2, h3, h4, h5, h6, h7]
  · intro m s pos
    exact ⟨rfl, rfl⟩

theorem language_model_scorers_structure_witness :
    ((LM_LSTM_CRF.word_pre_train_forward testModel idx11 idx11).1).shape.getLast?
        = some testModel.word_pre_train_out.outF
    ∧ testModel.word_pre_train_out.outF = 1
    ∧ LM_LSTM_CRF.word_pre_train_forward testModel idx11 idx11
        = LM_LSTM_CRF.word_pre_train_forward testModelAttn idx11 idx11
    ∧ LM_LSTM_CRF.word_pre_train_backward testModel idx11 idx11
        = LM_LSTM_CRF.word_pre_train_backward testModelAttn idx11 idx11
    ∧ (LM_LSTM_CRF.word_pre_train_backward testModel idx11 idx11).2
        = (testModel.back_char_lstm
            (testModel.dropout (embedLookup testModel.char_embeds idx11))).2 :=
  ⟨(language_model_scorers_structure.1 testModel idx11 idx11).1,
    language_model_scorers_structure.2.1 1 1 1 1 1 1 1 1 1 1 1 true false 1 false testParams,
    language_model_scorers_structure.2.2.1 testModel testModelAttn
      rfl rfl rfl rfl rfl rfl rfl idx11 idx11,
    language_model_scorers_structure.2.2.2.1 testModel testModelAttn
      rfl rfl rfl rfl rfl rfl rfl idx11 idx11,
    (language_model_scorers_structure.2.2.2.2 testModel idx11 idx11).2⟩

/-- C8: `load_pretrained_word_embedding` raises an assertion error iff
the tensor has a second dimension and it differs from `embedding_dim`
(`word_dim`); the first dimension is never checked against `vocab_size`
(success is invariant under changing it); on success `word_embeds` is
replaced by the given tensor and nothing else in the model changes. -/
theorem load_pretrained_word_embedding_check :
    (∀ (m : Model) (pre : Tensor),
      LM_LSTM_CRF.load_pretrained_word_embedding m pre
          = Except.error LM_LSTM_CRF.LoadErr.assertionError
        ↔ ∃ d1, pre.shape.get? 1 = some d1 ∧ d1 ≠ m.word_dim)
    ∧ (∀ (m : Model) (pre : Tensor) (m2 : Model),
      LM_LSTM_CRF.load_pretrained_word_embedding m pre = Except.ok m2 →
      m2 = { m with word_embeds := pre })
    ∧ (∀ (m : Model) (d0 d0' d1 : Nat) (rest : List Nat) (dat dat' : List ℤ),
      (LM_LSTM_CRF.load_pretrained_word_embedding m ⟨d0 :: d1 :: rest, dat⟩).isOk
        = (LM_LSTM_CRF.load_pretrained_word_embedding m ⟨d0' :: d1 :: rest, dat'⟩).isOk) := by
  refine ⟨?_, ?_, ?_⟩
  · intro m pre
    rw [LM_LSTM_CRF.load_pretrained_word_embedding]
    rcases hp : pre.shape.get? 1 with _ | d1
    · simp [hp]
    · by_cases hd : d1 = m.word_dim
      · simp [hp, hd]
      · simp [hp, hd]
  · intro m pre m2 h
    rw [LM_LSTM_CRF.load_pretrained_word_embedding] at h
    rcases hp : pre.shape.get? 1 with _ | d1 <;> rw [hp] at h
    · exact absurd h (by simp)
    · by_cases hd : d1 = m.word_dim
      · simp only [hd, if_true, Except.ok.injEq] at h
        exact h.symm
      · simp [hd] at h
  · intro m d0 d0' d1 rest dat dat'
    rw [LM_LSTM_CRF.load_pretrained_word_embedding,
      LM_LSTM_CRF.load_pretrained_word_embedding]
    by_cases hd : d1 = m.word_dim
    · simp [hd, Except.isOk, Except.toBool]
    · simp [hd, Except.isOk, Except.toBool]

theorem load_pretrained_word_embedding_check_witness :
    (LM_LSTM_CRF.load_pretrained_word_embedding testModel ⟨[3, 2], [1, 2, 3, 4, 5, 6]⟩
        = Except.error LM_LSTM_CRF.LoadErr.assertionError
      ↔ ∃ d1, (Tensor.mk [3, 2] [1, 2, 3, 4, 5, 6]).shape.get? 1 = some d1
          ∧ d1 ≠ testModel.word_dim)
    ∧ (LM_LSTM_CRF.load_pretrained_word_embedding testModel ⟨[3, 1], [1, 2, 3]⟩
        = Except.ok { testModel with word_embeds := ⟨[3, 1], [1, 2, 3]⟩ }
      ∧ ({ testModel with word_embeds := (⟨[3, 1], [1, 2, 3]⟩ : Tensor) } : Model)
        = { testModel with word_embeds := ⟨[3, 1], [1, 2, 3]⟩ })
    ∧ (LM_LSTM_CRF.load_pretrained_word_embedding testModel ⟨3 :: 1 :: [], [1, 2, 3]⟩).isOk
        = (LM_LSTM_CRF.load_pretrained_word_embedding testModel ⟨7 :: 1 :: [], [9]⟩).isOk := by
  refine ⟨load_pretrained_word_embedding_check.1 testModel ⟨[3, 2], [1, 2, 3, 4, 5, 6]⟩,
    ⟨rfl, load_pretrained_word_embedding_check.2.1 testModel ⟨[3, 1], [1, 2, 3]⟩
      { testModel with word_embeds := ⟨[3, 1], [1, 2, 3]⟩ } rfl⟩,
    load_pretrained_word_embedding_check.2.2 testModel 3 7 1 [] [1, 2, 3] [9]⟩

/-- C9: `forward` begins by overwriting `word_seq_length` with the first
dimension and `batch_size` with the second dimension of `forw_position`
(line 239), so after `forward` these fields equal the last input's
dimensions regardless of whatever values earlier `set_batch_size` or
`set_batch_seq_size` calls left there. -/
theorem forward_overwrites_batch_bookkeeping :
    ∀ (m : Model) (w b : Nat) (fs fp bs bp ws wp : NTensor) (wd fno : Nat)
      (d0 d1 : Nat) (rest : List Nat),
      fp.shape = d0 :: d1 :: rest →
      (LM_LSTM_CRF.forward { m with word_seq_length := w, batch_size := b }
          fs fp bs bp ws wp wd fno).1.word_seq_length = d0
      ∧ (LM_LSTM_CRF.forward { m with word_seq_length := w, batch_size := b }
          fs fp bs bp ws wp wd fno).1.batch_size = d1 := by
  intro m w b fs fp bs bp ws wp wd fno d0 d1 rest hfp
  rw [LM_LSTM_CRF.forward, LM_LSTM_CRF.set_batch_seq_size, hfp]
  exact ⟨rfl, rfl⟩

theorem forward_overwrites_batch_bookkeeping_witness :
    idx11.shape = 1 :: 1 :: []
    ∧ (LM_LSTM_CRF.forward { testModel with word_seq_length := 7, batch_size := 9 }
        idx11 idx11 idx11 idx11 idx11 idx11 0 0).1.word_seq_length = 1
    ∧ (LM_LSTM_CRF.forward { testModel with word_seq_length := 7, batch_size := 9 }
        idx11 idx11 idx11 idx11 idx11 idx11 0 0).1.batch_size = 1 :=
  ⟨rfl,
    forward_overwrites_batch_bookkeeping testModel 7 9 idx11 idx11 idx11 idx11 idx11 idx11
      0 0 1 1 [] rfl⟩

/-- C10: `rand_init` never modifies the frozen position-encoding table,
and with `init_word_embedding = false` it leaves `word_embeds` untouched
while replacing with fresh state: the char embedding iff
`init_char_embedding`, the three LSTMs, the linear layers
`char_pre_train_out`, `word_pre_train_out` and `fc`, the five highway
blocks iff `if_highway`, and every CRF head in `crflist`. -/
theorem rand_init_frame :
    ∀ (m : Model) (ic : Bool) (f : InitParams) (crfInit : Linear → Linear),
      (LM_LSTM_CRF.rand_init m ic false f crfInit).position_enc = m.position_enc
      ∧ (LM_LSTM_CRF.rand_init m ic false f crfInit).word_embeds = m.word_embeds
      ∧ (ic = true → (LM_LSTM_CRF.rand_init m ic false f crfInit).char_embeds = f.charEmbW)
      ∧ (ic = false → (LM_LSTM_CRF.rand_init m ic false f crfInit).char_embeds = m.char_embeds)
      ∧ (LM_LSTM_CRF.rand_init m ic false f crfInit).forw_char_lstm = f.fLSTM
      ∧ (LM_LSTM_CRF.rand_init m ic false f crfInit).back_char_lstm = f.bLSTM
      ∧ (LM_LSTM_CRF.rand_init m ic false f crfInit).word_lstm = f.wLSTM
      ∧ (LM_LSTM_CRF.rand_init m ic false f crfInit).char_pre_train_out
          = mkLinear m.char_hidden_dim m.char_size f.cptW f.cptB
      ∧ (LM_LSTM_CRF.rand_init m ic false f crfInit).word_pre_train_out
          = mkLinear m.char_hidden_dim m.word_pre_train_out.outF f.wptW f.wptB
      ∧ (LM_LSTM_CRF.rand_init m ic false f crfInit).fc
          = mkLinear m.fc.inF m.fc.outF f.fcW f.fcB
      ∧ (m.if_highway = true →
          (LM_LSTM_CRF.rand_init m ic false f crfInit).forw2char = some f.hwForwChar
          ∧ (LM_LSTM_CRF.rand_init m ic false f crfInit).back2char = some f.hwBackChar
          ∧ (LM_LSTM_CRF.rand_init m ic false f crfInit).forw2word = some f.hwForwWord
          ∧ (LM_LSTM_CRF.rand_init m ic false f crfInit).back2word = some f.hwBackWord
          ∧ (LM_LSTM_CRF.rand_init m ic false f crfInit).fb2char = some f.hwFbChar)
      ∧ (m.if_highway = false →
          (LM_LSTM_CRF.rand_init m ic false f crfInit).forw2char = m.forw2char
          ∧ (LM_LSTM_CRF.rand_init m ic false f crfInit).back2char = m.back2char
          ∧ (LM_LSTM_CRF.rand_init m ic false f crfInit).forw2word = m.forw2word
          ∧ (LM_LSTM_CRF.rand_init m ic false f crfInit).back2word = m.back2word
          ∧ (LM_LSTM_CRF.rand_init m ic false f crfInit).fb2char = m.fb2char)
      ∧ (LM_LSTM_CRF.rand_init m ic false f crfInit).crflist = m.crflist.map crfInit := by
  intro m ic f crfInit
  refine ⟨rfl, by simp [LM_LSTM_CRF.rand_init], ?_, ?_, rfl, rfl, rfl, rfl, rfl, rfl,
    ?_, ?_, rfl⟩
  · intro h
    simp [LM_LSTM_CRF.rand_init, h]
  · intro h
    simp [LM_LSTM_CRF.rand_init, h]
  · intro h
    simp [LM_LSTM_CRF.rand_init, h]
  · intro h
    simp [LM_LSTM_CRF.rand_init, h]

theorem rand_init_frame_witness :
    (LM_LSTM_CRF.rand_init testModelHW true false testParams id).position_enc
        = testModelHW.position_enc
    ∧ (LM_LSTM_CRF.rand_init testModelHW true false testParams id).word_embeds
        = testModelHW.word_embeds
    ∧ (LM_LSTM_CRF.rand_init testModelHW true false testParams id).char_embeds
        = testParams.charEmbW
    ∧ (LM_LSTM_CRF.rand_init testModelHW true false testParams id).fb2char
        = some testParams.hwFbChar
    ∧ (LM_LSTM_CRF.rand_init testModelHW true false testParams id).crflist
        = testModelHW.crflist.map id := by
  have h := rand_init_frame testModelHW true testParams id
  exact ⟨h.1, h.2.1, h.2.2.1 rfl, (h.2.2.2.2.2.2.2.2.2.2.1 rfl).2.2.2.2,
    h.2.2.2.2.2.2.2.2.2.2.2.2⟩
